import Mathlib

/-!
Verification development for the DBHub SQL gateway: dialect model, the
comment/string-aware SQL tokenizer, the read-only classifier, statement
splitting, parameter-style analysis, row limiting, identifier quoting and
the multi-source connector manager.  SQL text is embedded as `List Char`.
-/

set_option maxRecDepth 10000

/-- The six supported dialects (`ConnectorType` in `connectors/interface.ts`). -/
inductive ConnectorType where
  | postgres
  | mysql
  | mariadb
  | sqlserver
  | sqlite
  | tdengine
deriving DecidableEq, Repr

/-- Scanner mode for the comment/string-aware tokenizer. -/
inductive Mode where
  | normal
  | single
  | double
  | line
  | block
deriving DecidableEq, Repr

/-- Modelled from the spec: `stripCommentsAndStrings` in `utils/sql-parser.ts`
is not part of the provided sources.  Per spec 4.1 it produces a version of the
SQL with the contents of single-quoted strings, double-quoted strings, line
comments and block comments removed, treating a doubled quote inside a string
as an escaped literal quote.  `stripGo` is the character scanner; string
literals are removed entirely, a line comment is removed up to (excluding) its
terminating newline, and a block comment is replaced by a single space. -/
def stripGo : Mode → List Char → List Char
  | _, [] => []
  | .normal, [c] =>
    if c = '\'' then [] else if c = '"' then [] else [c]
  | .normal, c :: c2 :: r2 =>
    if c = '\'' then stripGo .single (c2 :: r2)
    else if c = '"' then stripGo .double (c2 :: r2)
    else if c = '-' then
      (if c2 = '-' then stripGo .line r2 else c :: stripGo .normal (c2 :: r2))
    else if c = '/' then
      (if c2 = '*' then ' ' :: stripGo .block r2 else c :: stripGo .normal (c2 :: r2))
    else c :: stripGo .normal (c2 :: r2)
  | .single, [_] => []
  | .single, c :: c2 :: r2 =>
    if c = '\'' then
      (if c2 = '\'' then stripGo .single r2 else stripGo .normal (c2 :: r2))
    else stripGo .single (c2 :: r2)
  | .double, [_] => []
  | .double, c :: c2 :: r2 =>
    if c = '"' then
      (if c2 = '"' then stripGo .double r2 else stripGo .normal (c2 :: r2))
    else stripGo .double (c2 :: r2)
  | .line, [c] => if c = '\n' then ['\n'] else []
  | .line, c :: c2 :: r2 =>
    if c = '\n' then '\n' :: stripGo .normal (c2 :: r2) else stripGo .line (c2 :: r2)
  | .block, [_] => []
  | .block, c :: c2 :: r2 =>
    if c = '*' then
      (if c2 = '/' then stripGo .normal r2 else stripGo .block (c2 :: r2))
    else stripGo .block (c2 :: r2)

/-- Modelled from the spec: the cleaned view of a SQL string (spec 4.1). -/
def stripCommentsAndStrings (l : List Char) : List Char :=
  stripGo .normal l

/-- Trim leading and trailing whitespace, as JavaScript `String.trim`. -/
def trimChars (l : List Char) : List Char :=
  ((l.dropWhile Char.isWhitespace).reverse.dropWhile Char.isWhitespace).reverse

/-- Lower-case every character, as JavaScript `String.toLowerCase` on ASCII SQL. -/
def lowerChars (l : List Char) : List Char :=
  l.map Char.toLower

/-- First whitespace-delimited token of an already-trimmed string
(`cleanedSQL.split(/\s+/)[0]` in `utils/allowed-keywords.ts`). -/
def firstWord (l : List Char) : List Char :=
  l.takeWhile (fun c => !c.isWhitespace)

/-- The per-dialect allow-list of statement-leading keywords
(`allowedKeywords` in `utils/allowed-keywords.ts`). -/
def allowedKeywords : ConnectorType → List (List Char)
  | .postgres => ["select".data, "with".data, "explain".data, "analyze".data, "show".data]
  | .mysql => ["select".data, "with".data, "explain".data, "analyze".data, "show".data,
      "describe".data, "desc".data]
  | .mariadb => ["select".data, "with".data, "explain".data, "analyze".data, "show".data,
      "describe".data, "desc".data]
  | .sqlite => ["select".data, "with".data, "explain".data, "analyze".data, "pragma".data]
  | .sqlserver => ["select".data, "with".data, "explain".data, "showplan".data]
  | .tdengine => ["select".data, "with".data, "explain".data, "show".data,
      "describe".data, "desc".data]

/-- `isReadOnlySQL` from `utils/allowed-keywords.ts`: strip comments and
strings, trim, lower-case; an empty result is read-only; otherwise test the
first word against the dialect's allow-list. -/
def isReadOnlySQL (sql : List Char) (d : ConnectorType) : Bool :=
  let cleaned := lowerChars (trimChars (stripCommentsAndStrings sql))
  if cleaned = [] then true
  else decide (firstWord cleaned ∈ allowedKeywords d)

/-- JavaScript `sql.split(';')`: split on every semicolon, keeping empty pieces. -/
def splitOnSemi : List Char → List (List Char)
  | [] => [[]]
  | c :: r =>
    if c = ';' then [] :: splitOnSemi r
    else
      match splitOnSemi r with
      | [] => [[c]]
      | h :: t => (c :: h) :: t

/-- `splitSQLStatements` from `tools/execute-sql.ts`: split on `;`, trim each
piece, drop empty pieces.  The split is a plain character split, with no
awareness of strings or comments. -/
def splitSQLStatements (sql : List Char) : List (List Char) :=
  ((splitOnSemi sql).map trimChars).filter (fun s => s ≠ [])

/-- `areAllStatementsReadOnly` from `tools/execute-sql.ts`. -/
def areAllStatementsReadOnly (sql : List Char) (d : ConnectorType) : Bool :=
  (splitSQLStatements sql).all (fun s => isReadOnlySQL s d)

/-- The per-statement split performed inside `TDengineConnector.executeSQL`
(`connectors/tdengine/index.ts`): `sql.split(";")`, trim, drop empties —
the same plain character split as the tool handler's. -/
def tdengineSplitStatements (sql : List Char) : List (List Char) :=
  ((splitOnSemi sql).map trimChars).filter (fun s => s ≠ [])

/-- Detected parameter placeholder style (`utils/parameter-mapper.ts`). -/
inductive ParamStyle where
  | numbered
  | positional
  | named
  | noStyle
deriving DecidableEq, Repr

/-- Is there a `$` immediately followed by a digit (the `/\$\d+/` test)? -/
def hasNumbered : List Char → Bool
  | [] => false
  | [_] => false
  | c :: c2 :: r2 =>
    if c = '$' then
      (if c2.isDigit then true else hasNumbered (c2 :: r2))
    else hasNumbered (c2 :: r2)

/-- Is there an `@p` immediately followed by a digit (the `/@p\d+/` test)? -/
def hasNamed : List Char → Bool
  | [] => false
  | [_] => false
  | [_, _] => false
  | c :: c2 :: c3 :: r3 =>
    if c = '@' then
      (if c2 = 'p' then
        (if c3.isDigit then true else hasNamed (c2 :: c3 :: r3))
      else hasNamed (c2 :: c3 :: r3))
    else hasNamed (c2 :: c3 :: r3)

/-- `detectParameterStyle` from `utils/parameter-mapper.ts`: strip comments
and strings, then test numbered before named before positional. -/
def detectParameterStyle (stmt : List Char) : ParamStyle :=
  if hasNumbered (stripCommentsAndStrings stmt) then .numbered
  else if hasNamed (stripCommentsAndStrings stmt) then .named
  else if (stripCommentsAndStrings stmt).contains '?' then .positional
  else .noStyle

/-- Numeric value of a digit character. -/
def digitVal (c : Char) : Nat := c.toNat - 48

/-- Scanner state while extracting `/\$\d+/g` matches: outside any match,
just after a `$`, or inside a digit run with its accumulated value. -/
inductive NumScan where
  | plain
  | dollar
  | num (acc : Nat)
deriving DecidableEq, Repr

/-- Single-pass extraction of the `/\$\d+/g` match values: at each `$`
followed by at least one digit, the maximal digit run is taken and its
numeric value emitted, in order of occurrence. -/
def numGo : NumScan → List Char → List Nat
  | .plain, [] => []
  | .dollar, [] => []
  | .num acc, [] => [acc]
  | .plain, c :: r => if c = '$' then numGo .dollar r else numGo .plain r
  | .dollar, c :: r =>
    if c.isDigit then numGo (.num (digitVal c)) r
    else if c = '$' then numGo .dollar r
    else numGo .plain r
  | .num acc, c :: r =>
    if c.isDigit then numGo (.num (10 * acc + digitVal c)) r
    else if c = '$' then acc :: numGo .dollar r
    else acc :: numGo .plain r

/-- The values of the `/\$\d+/g` matches of a cleaned statement, in order
(the numbers the `matches.map(m => parseInt(m.slice(1), 10))` step yields). -/
def numberedIndices (l : List Char) : List Nat := numGo .plain l

/-- Scanner state while extracting `/@p\d+/g` matches. -/
inductive NamScan where
  | plain
  | at
  | atp
  | num (acc : Nat)
deriving DecidableEq, Repr

/-- Single-pass extraction of the `/@p\d+/g` match values. -/
def namGo : NamScan → List Char → List Nat
  | .plain, [] => []
  | .at, [] => []
  | .atp, [] => []
  | .num acc, [] => [acc]
  | .plain, c :: r => if c = '@' then namGo .at r else namGo .plain r
  | .at, c :: r =>
    if c = 'p' then namGo .atp r
    else if c = '@' then namGo .at r
    else namGo .plain r
  | .atp, c :: r =>
    if c.isDigit then namGo (.num (digitVal c)) r
    else if c = '@' then namGo .at r
    else namGo .plain r
  | .num acc, c :: r =>
    if c.isDigit then namGo (.num (10 * acc + digitVal c)) r
    else if c = '@' then acc :: namGo .at r
    else acc :: namGo .plain r

/-- The values of the `/@p\d+/g` matches of a cleaned statement, in order. -/
def namedIndices (l : List Char) : List Nat := namGo .plain l

/-- Maximum of a list of naturals (`Math.max(...uniqueIndices)` — the indices
are naturals, so a seed of zero does not change the maximum of a non-empty
list). -/
def listMax (l : List Nat) : Nat := l.foldl max 0

/-- Error raised by `countParameters`: the first missing index of a
non-sequential numbered/named parameter list (`missing $i` / `missing @pi`). -/
inductive CountError where
  | missingNumbered (i : Nat)
  | missingNamed (i : Nat)
deriving DecidableEq, Repr

/-- `countParameters` from `utils/parameter-mapper.ts`: for numbered/named
styles collect the referenced indices, require every integer from 1 to the
maximum to be referenced (first missing index reported as the error), and
return the maximum; for the positional style count `?` occurrences. -/
def countParameters (stmt : List Char) : Except CountError Nat :=
  match detectParameterStyle stmt with
  | .numbered =>
    match numberedIndices (stripCommentsAndStrings stmt) with
    | [] => .ok 0
    | n :: ns =>
      match (List.range' 1 (listMax (n :: ns))).find? (fun i => !(n :: ns).contains i) with
      | some i => .error (.missingNumbered i)
      | none => .ok (listMax (n :: ns))
  | .named =>
    match namedIndices (stripCommentsAndStrings stmt) with
    | [] => .ok 0
    | n :: ns =>
      match (List.range' 1 (listMax (n :: ns))).find? (fun i => !(n :: ns).contains i) with
      | some i => .error (.missingNamed i)
      | none => .ok (listMax (n :: ns))
  | .positional => .ok ((stripCommentsAndStrings stmt).count '?')
  | .noStyle => .ok 0

/-- The decimal digit character for a value below ten. -/
def digitChar : Nat → Char
  | 0 => '0'
  | 1 => '1'
  | 2 => '2'
  | 3 => '3'
  | 4 => '4'
  | 5 => '5'
  | 6 => '6'
  | 7 => '7'
  | 8 => '8'
  | _ => '9'

/-- Value of a left-to-right digit string. -/
def valOfDigits (ds : List Char) : Nat :=
  ds.foldl (fun a c => 10 * a + digitVal c) 0

/-- Decimal rendering of a natural number, fuelled so that it reduces in the
kernel; the fuel is always sufficient at `n + 1`. -/
def natCharsAux : Nat → Nat → List Char
  | 0, _ => []
  | fuel + 1, n =>
    if n < 10 then [digitChar n]
    else natCharsAux fuel (n / 10) ++ [digitChar (n % 10)]

/-- Decimal rendering of a natural number (as JavaScript number-to-string). -/
def natChars (n : Nat) : List Char := natCharsAux (n + 1) n

/-- Modelled from the spec: trailing-`LIMIT` detection of the row limiter
(`SQLRowLimiter` in `utils/sql-row-limiter.ts` is not part of the provided
sources).  The statement is scanned from its end (the input here is the
reversed statement): optional whitespace, a digit run, whitespace, the
keyword `limit` case-insensitively, and a whitespace boundary before the
keyword.  Returns the statement part before the limit clause (with trailing
whitespace removed) and the limit value. -/
def limitRevScan (r : List Char) : Option (List Char × Nat) :=
  match (r.dropWhile Char.isWhitespace).takeWhile Char.isDigit with
  | [] => none
  | d :: ds =>
    match (r.dropWhile Char.isWhitespace).dropWhile Char.isDigit with
    | [] => none
    | c :: r3 =>
      if c.isWhitespace then
        match r3.dropWhile Char.isWhitespace with
        | t :: i1 :: m :: i2 :: l :: r5 =>
          if t.toLower = 't' ∧ i1.toLower = 'i' ∧ m.toLower = 'm'
              ∧ i2.toLower = 'i' ∧ l.toLower = 'l' then
            match r5 with
            | [] => some ([], valOfDigits (d :: ds).reverse)
            | b :: _ =>
              if b.isWhitespace then
                some ((r5.dropWhile Char.isWhitespace).reverse, valOfDigits (d :: ds).reverse)
              else none
          else none
        | _ => none
      else none

/-- Modelled from the spec: split a statement into the part before a trailing
`LIMIT n` clause and the value `n`, when such a clause is present. -/
def splitTrailingLimit (stmt : List Char) : Option (List Char × Nat) :=
  limitRevScan stmt.reverse

/-- The limit value carried by a statement's trailing `LIMIT` clause, if any. -/
def effectiveLimit (stmt : List Char) : Option Nat :=
  (splitTrailingLimit stmt).map Prod.snd

/-- Does the statement begin with a `WITH` clause (a CTE)? -/
def isCTE (stmt : List Char) : Bool :=
  firstWord (lowerChars (trimChars stmt)) = "with".data

/-- Modelled from the spec: `SQLRowLimiter.applyMaxRows` (spec 4.4), applied
by connectors to each query-shaped statement.  With no `maxRows` the
statement is returned unmodified; a CTE-prefixed statement is never
rewritten; otherwise an existing trailing `LIMIT n` is rewritten to
`min n maxRows`, and a missing one is appended as `LIMIT maxRows`. -/
def applyMaxRows (stmt : List Char) (maxRows : Option Nat) : List Char :=
  match maxRows with
  | none => stmt
  | some m =>
    if isCTE stmt then stmt
    else
      match splitTrailingLimit stmt with
      | some (core, n) => core ++ " LIMIT ".data ++ natChars (min n m)
      | none => stmt ++ " LIMIT ".data ++ natChars m

/-- The characters `quoteIdentifier` rejects:
`\0`, `\x08`, `\x09`, `\x1a`, `\n`, `\r` (`utils/identifier-quoter.ts`). -/
def isBadIdentChar (c : Char) : Bool :=
  c = '\x00' || c = '\x08' || c = '\x09' || c = '\x1a' || c = '\n' || c = '\r'

/-- Double every occurrence of the quote character `q`, as the
`replace(/q/g, "qq")` escaping step of `quoteIdentifier`. -/
def escQuote (q : Char) : List Char → List Char
  | [] => []
  | c :: r => if c = q then q :: q :: escQuote q r else c :: escQuote q r

/-- Errors raised by `quoteIdentifier`. -/
inductive QuoteError where
  | controlChars
  | empty
deriving DecidableEq, Repr

/-- The opening delimiter, escape character and closing delimiter of a
dialect's identifier quoting convention. -/
def quoteChars : ConnectorType → Char × Char × Char
  | .postgres => ('"', '"', '"')
  | .sqlite => ('"', '"', '"')
  | .mysql => ('`', '`', '`')
  | .mariadb => ('`', '`', '`')
  | .tdengine => ('`', '`', '`')
  | .sqlserver => ('[', ']', ']')

/-- `quoteIdentifier` from `utils/identifier-quoter.ts`: reject identifiers
with the banned control characters or empty identifiers, then wrap in the
dialect's delimiters with the dialect's doubling escape. -/
def quoteIdentifier (ident : List Char) (d : ConnectorType) : Except QuoteError (List Char) :=
  if ident.any isBadIdentChar then .error .controlChars
  else if ident = [] then .error .empty
  else
    let (o, e, c) := quoteChars d
    .ok (o :: (escQuote e ident ++ [c]))

/-- Collapse each doubled occurrence of the escape character `q` back to a
single occurrence. -/
def collapseEsc (q : Char) : List Char → List Char
  | [] => []
  | [c] => [c]
  | c1 :: c2 :: r =>
    if c1 = q ∧ c2 = q then q :: collapseEsc q r else c1 :: collapseEsc q (c2 :: r)

/-- The decoding the round-trip claim describes: strip the outer delimiters
and collapse each doubled escape character back to a single one. -/
def unquoteIdentifier (quoted : List Char) (d : ConnectorType) : List Char :=
  let (_, e, _) := quoteChars d
  collapseEsc e (quoted.drop 1).dropLast

/-- The outcome of the `execute_sql` tool handler: a success payload, or an
error response with its distinct error code. -/
inductive ToolOutcome (α : Type) where
  | success (result : α)
  | failure (code : String)
deriving DecidableEq, Repr

/-- The part of `createExecuteSqlToolHandler` (`tools/execute-sql.ts`) that the
read-only gate claim is about: with per-tool readonly mode on, a batch whose
statements are not all read-only is rejected with code `READONLY_VIOLATION`
before `connector.executeSQL` runs; otherwise the batch is passed to
`connector.executeSQL`, whose driver error (if any) becomes an
`EXECUTION_ERROR` response.  The returned flag records whether
`connector.executeSQL` was invoked. -/
def runExecuteSqlTool (readonly : Bool) (d : ConnectorType) (sql : List Char)
    (exec : List Char → Except String α) : ToolOutcome α × Bool :=
  if readonly && !areAllStatementsReadOnly sql d then
    (.failure "READONLY_VIOLATION", false)
  else
    match exec sql with
    | .ok r => (.success r, true)
    | .error _ => (.failure "EXECUTION_ERROR", true)

/-- State of the `ConnectorManager` maps that govern lazy connection
(`connectors/manager.ts`): connected source ids, pending-lazy source ids, the
in-flight connection promises, a fresh-promise counter, and the total number
of `connect()` invocations (each made on a freshly cloned connector). -/
structure ManagerState where
  connected : List Nat
  lazy : List Nat
  pending : List (Nat × Nat)
  nextPromise : Nat
  connectCalls : Nat
deriving DecidableEq, Repr

/-- Look up the in-flight connection promise for a source id
(`pendingConnections.get(id)`). -/
def findPending (id : Nat) : List (Nat × Nat) → Option Nat
  | [] => none
  | (i, p) :: r => if i = id then some p else findPending id r

/-- Result of one `ensureConnected(id)` call: already connected, unknown
source id (error naming available ids), joined an in-flight attempt, or
started a new attempt; the payload is the promise awaited. -/
inductive EnsureResult where
  | alreadyConnected
  | notFound
  | joined (promise : Nat)
  | started (promise : Nat)
deriving DecidableEq, Repr

/-- `ConnectorManager.ensureConnected` (`connectors/manager.ts`) as one atomic
step: the whole body up to returning the connection promise runs without a
suspension point visible to other callers, because the cloned connector's
`connect()` is invoked and the promise recorded before control returns to the
event loop.  Starting a new attempt clones a fresh connector and invokes
`connect()` on it exactly once. -/
def ensureConnected (st : ManagerState) (id : Nat) : ManagerState × EnsureResult :=
  if id ∈ st.connected then (st, .alreadyConnected)
  else if id ∉ st.lazy then (st, .notFound)
  else
    match findPending id st.pending with
    | some p => (st, .joined p)
    | none =>
      ({ st with
          pending := (id, st.nextPromise) :: st.pending,
          nextPromise := st.nextPromise + 1,
          connectCalls := st.connectCalls + 1 },
        .started st.nextPromise)

/-- Completion of an in-flight connection attempt for `id` (the continuation
of the tracked promise in `ensureConnected` plus the `finally` block): on
success the connector is stored and the source leaves the lazy map; on
failure both maps are untouched; in either case the pending record is
removed.  The returned flag is the attempt outcome, which the promise
delivers unchanged to every caller awaiting it (there is no catch handler). -/
def completeConnection (st : ManagerState) (id : Nat) (success : Bool) :
    ManagerState × Bool :=
  let st1 :=
    if success then
      { st with connected := id :: st.connected, lazy := st.lazy.erase id }
    else st
  ({ st1 with pending := st1.pending.filter (fun e => e.1 ≠ id) }, success)

/-- The module-level singleton slot and the constructed `ConnectorManager`
instances (`managerInstance` in `connectors/manager.ts`).  Instances are
identified by the order of their construction. -/
structure GlobalManagers where
  instances : List Nat
  managerInstance : Option Nat
  nextId : Nat
deriving DecidableEq, Repr

/-- The global state before any `ConnectorManager` is constructed. -/
def initialGlobalManagers : GlobalManagers :=
  { instances := [], managerInstance := none, nextId := 0 }

/-- The `ConnectorManager` constructor: allocate an instance and install it as
the singleton only when no singleton exists yet. -/
def constructManager (g : GlobalManagers) : GlobalManagers :=
  { instances := g.instances ++ [g.nextId],
    managerInstance :=
      match g.managerInstance with
      | none => some g.nextId
      | some m => some m,
    nextId := g.nextId + 1 }

/-- The instance every static `ConnectorManager` method dispatches to
(`ConnectorManager.ensureConnected`, `getCurrentConnector`,
`getSourceConfig`, ... all read `managerInstance`, throwing when it is
`none`). -/
def staticDispatchTarget (g : GlobalManagers) : Option Nat :=
  g.managerInstance

example : natChars 0 = ['0'] := by rfl
example : natChars 125 = ['1', '2', '5'] := by rfl
example : splitTrailingLimit "SELECT * FROM users ORDER BY id LIMIT 10".data
    = some ("SELECT * FROM users ORDER BY id".data, 10) := by rfl
example : splitTrailingLimit "SELECT * FROM users".data = none := by rfl
example : applyMaxRows "SELECT * FROM users ORDER BY id LIMIT 10".data (some 2)
    = "SELECT * FROM users ORDER BY id LIMIT 2".data := by rfl
example : applyMaxRows "SELECT * FROM users ORDER BY id LIMIT 1".data (some 3)
    = "SELECT * FROM users ORDER BY id LIMIT 1".data := by rfl
example : applyMaxRows "SELECT * FROM users".data (some 2)
    = "SELECT * FROM users LIMIT 2".data := by rfl
example : applyMaxRows "SELECT * FROM users ORDER BY id LIMIT 10".data none
    = "SELECT * FROM users ORDER BY id LIMIT 10".data := by rfl
example : applyMaxRows "WITH s AS (SELECT name FROM users) SELECT * FROM s".data (some 2)
    = "WITH s AS (SELECT name FROM users) SELECT * FROM s".data := by rfl

example : detectParameterStyle "SELECT 'price is $1' AS msg FROM products".data = .noStyle := by
  decide
example : detectParameterStyle "SELECT * FROM \"table$1\" WHERE active = true".data
    = .noStyle := by decide
example : detectParameterStyle "SELECT * FROM users -- use $1 for filtering".data
    = .noStyle := by decide
example : detectParameterStyle "SELECT 'cost is $1' AS label, * FROM products WHERE id = $1".data
    = .numbered := by decide
example : detectParameterStyle "SELECT 'what?' AS question FROM faq".data = .noStyle := by decide
example : detectParameterStyle "SELECT 'contact @p1 for info' AS msg FROM users".data
    = .noStyle := by decide
example : countParameters "SELECT '$1 $2 $3' AS text FROM test WHERE id = $1".data = .ok 1 := by
  rfl
example : countParameters "SELECT 'it''s $1 value' AS text FROM test WHERE id = $1".data
    = .ok 1 := by rfl
example : countParameters "SELECT * FROM users WHERE id = $1 AND status = $2".data = .ok 2 := by rfl
example : countParameters "SELECT * WHERE a = $1 AND b = $3".data
    = .error (.missingNumbered 2) := by rfl
example : countParameters "SELECT * WHERE a = $2 AND b = $5 AND c = $7".data
    = .error (.missingNumbered 1) := by rfl
example : countParameters "SELECT * WHERE a = @p1 AND b = @p3".data
    = .error (.missingNamed 2) := by rfl
example : countParameters "SELECT * WHERE (id = $1 OR parent_id = $1) AND status = $2".data
    = .ok 2 := by rfl
example : countParameters "SELECT * FROM users WHERE id = ? AND status = ?".data = .ok 2 := by rfl
example : countParameters "SELECT * FROM t WHERE a = $0 AND b = $1".data = .ok 1 := by rfl

example : isReadOnlySQL "SELECT * FROM users".data .postgres = true := by decide
example : isReadOnlySQL "-- DELETE FROM users\nSELECT 1".data .postgres = true := by decide
example : isReadOnlySQL "/* SELECT */ INSERT INTO t VALUES (1)".data .postgres = false := by
  decide
example : isReadOnlySQL "PRAGMA table_info(users)".data .sqlite = true := by decide
example : isReadOnlySQL "SHOW TABLES".data .sqlite = false := by decide
example : isReadOnlySQL "SHOW TABLES".data .postgres = true := by decide
example : isReadOnlySQL "-- just a comment".data .postgres = true := by decide
example : splitSQLStatements "SELECT 1; SELECT 2;".data =
    ["SELECT 1".data, "SELECT 2".data] := by decide
example : splitSQLStatements "SELECT 'a;b'".data = ["SELECT 'a".data, "b'".data] := by decide
example : areAllStatementsReadOnly "SELECT 1; DROP TABLE t".data .postgres = false := by decide

/-- C1: with readonly mode enabled for the execute_sql tool, a batch with a
statement that does not classify as read-only for the connector's dialect is
answered with the distinct READONLY_VIOLATION error code and the connector's
`executeSQL` is never invoked; a batch whose statements all classify as
read-only is passed on to execution. -/
theorem C1_readonly_gate {α : Type} (d : ConnectorType) (sql : List Char)
    (exec : List Char → Except String α) :
    ((∃ s ∈ splitSQLStatements sql, isReadOnlySQL s d = false) →
      runExecuteSqlTool true d sql exec = (.failure "READONLY_VIOLATION", false))
    ∧ ((∀ s ∈ splitSQLStatements sql, isReadOnlySQL s d = true) →
      (runExecuteSqlTool true d sql exec).2 = true) := by
  constructor
  · rintro ⟨s, hs, hro⟩
    have hall : areAllStatementsReadOnly sql d = false := by
      unfold areAllStatementsReadOnly
      exact List.all_eq_false.2 ⟨s, hs, by simp [hro]⟩
    simp [runExecuteSqlTool, hall]
  · intro h
    have hall : areAllStatementsReadOnly sql d = true := by
      unfold areAllStatementsReadOnly
      exact List.all_eq_true.2 h
    cases hexec : exec sql <;> simp [runExecuteSqlTool, hall, hexec]

/-- Witness for C1 at concrete inputs: a batch with a DROP statement is
rejected without execution; an all-SELECT batch reaches the executor. -/
theorem C1_readonly_gate_witness :
    runExecuteSqlTool true .postgres "SELECT 1; DROP TABLE t".data
        (fun s => Except.ok s) = (.failure "READONLY_VIOLATION", false)
    ∧ (runExecuteSqlTool true .postgres "SELECT 1; SELECT 2".data
        (fun s => Except.ok s)).2 = true :=
  ⟨(C1_readonly_gate .postgres "SELECT 1; DROP TABLE t".data (fun s => Except.ok s)).1
      ⟨"DROP TABLE t".data, by decide, by decide⟩,
    (C1_readonly_gate .postgres "SELECT 1; SELECT 2".data (fun s => Except.ok s)).2
      (by decide)⟩

/-- C2: for an unconnected registered lazy source id with no in-flight
attempt, two concurrent `ensureConnected(id)` calls start exactly one
connection attempt: the first starts a fresh attempt and invokes `connect()`
on a freshly cloned connector exactly once, the second is handed the same
in-flight promise, changes nothing, and invokes no further `connect()`. -/
theorem C2_concurrent_ensureConnected (st : ManagerState) (id : Nat)
    (hconn : id ∉ st.connected) (hlazy : id ∈ st.lazy)
    (hpend : findPending id st.pending = none)
    (hfresh : ∀ e ∈ st.pending, e.2 ≠ st.nextPromise) :
    (ensureConnected st id).2 = .started st.nextPromise
    ∧ (ensureConnected (ensureConnected st id).1 id).2 = .joined st.nextPromise
    ∧ (ensureConnected (ensureConnected st id).1 id).1 = (ensureConnected st id).1
    ∧ (ensureConnected (ensureConnected st id).1 id).1.connectCalls = st.connectCalls + 1
    ∧ ∀ e ∈ st.pending, e.2 ≠ st.nextPromise := by
  have h1 : ensureConnected st id =
      ({ st with
          pending := (id, st.nextPromise) :: st.pending,
          nextPromise := st.nextPromise + 1,
          connectCalls := st.connectCalls + 1 },
        .started st.nextPromise) := by
    simp [ensureConnected, hconn, hlazy, hpend]
  have h2 : findPending id ((id, st.nextPromise) :: st.pending) = some st.nextPromise := by
    simp [findPending]
  refine ⟨by rw [h1], ?_, ?_, ?_, hfresh⟩ <;>
    rw [h1] <;> simp [ensureConnected, hconn, hlazy, h2]

/-- Witness for C2 at a concrete state with one lazy source. -/
theorem C2_concurrent_ensureConnected_witness :
    (ensureConnected (ManagerState.mk [] [7] [] 0 0) 7).2 = .started 0
    ∧ (ensureConnected (ensureConnected (ManagerState.mk [] [7] [] 0 0) 7).1 7).2 = .joined 0
    ∧ (ensureConnected (ensureConnected (ManagerState.mk [] [7] [] 0 0) 7).1 7).1
      = (ensureConnected (ManagerState.mk [] [7] [] 0 0) 7).1
    ∧ (ensureConnected (ensureConnected (ManagerState.mk [] [7] [] 0 0) 7).1 7).1.connectCalls
      = 0 + 1
    ∧ ∀ e ∈ ([] : List (Nat × Nat)), e.2 ≠ 0 :=
  C2_concurrent_ensureConnected (ManagerState.mk [] [7] [] 0 0) 7
    (by decide) (by decide) (by decide) (by decide)

/-- The pending-connection record for `id` is gone after the map is filtered
on keys different from `id` (the `finally` cleanup). -/
theorem findPending_filter (id : Nat) (l : List (Nat × Nat)) :
    findPending id (l.filter (fun e => !decide (e.1 = id))) = none := by
  induction l with
  | nil => rfl
  | cons e t ih =>
    obtain ⟨i, p⟩ := e
    by_cases h : i = id
    · simpa [List.filter_cons, h] using ih
    · simpa [List.filter_cons, h, findPending] using ih

/-- C8: when the connection attempt started by `ensureConnected(id)` for a
registered lazy source fails, the failure outcome is what every awaiting
caller receives, the in-flight record is removed regardless of outcome, the
source stays in the lazy map and out of the connected map, and a later
`ensureConnected(id)` starts a fresh attempt with a new `connect()` call. -/
theorem C8_failed_lazy_attempt (st : ManagerState) (id : Nat)
    (hconn : id ∉ st.connected) (hlazy : id ∈ st.lazy)
    (hpend : findPending id st.pending = none) :
    (completeConnection (ensureConnected st id).1 id false).2 = false
    ∧ (∀ b, findPending id (completeConnection (ensureConnected st id).1 id b).1.pending = none)
    ∧ id ∈ (completeConnection (ensureConnected st id).1 id false).1.lazy
    ∧ id ∉ (completeConnection (ensureConnected st id).1 id false).1.connected
    ∧ (ensureConnected (completeConnection (ensureConnected st id).1 id false).1 id).2
        = .started (st.nextPromise + 1)
    ∧ (ensureConnected (completeConnection (ensureConnected st id).1 id false).1 id).1.connectCalls
        = st.connectCalls + 2 := by
  have h1 : ensureConnected st id =
      ({ st with
          pending := (id, st.nextPromise) :: st.pending,
          nextPromise := st.nextPromise + 1,
          connectCalls := st.connectCalls + 1 },
        .started st.nextPromise) := by
    simp [ensureConnected, hconn, hlazy, hpend]
  refine ⟨by simp [completeConnection], ?_, ?_, ?_, ?_, ?_⟩
  · intro b
    cases b <;> simp [h1, completeConnection, findPending_filter]
  · simp [h1, completeConnection, hlazy]
  · simp [h1, completeConnection, hconn]
  · rw [h1]
    simp [completeConnection, ensureConnected, hconn, hlazy, findPending_filter]
  · rw [h1]
    simp [completeConnection, ensureConnected, hconn, hlazy, findPending_filter]

/-- Witness for C8 at a concrete state with one lazy source. -/
theorem C8_failed_lazy_attempt_witness :
    (completeConnection (ensureConnected (ManagerState.mk [] [7] [] 0 0) 7).1 7 false).2 = false
    ∧ (∀ b, findPending 7
        (completeConnection (ensureConnected (ManagerState.mk [] [7] [] 0 0) 7).1 7 b).1.pending
        = none)
    ∧ 7 ∈ (completeConnection (ensureConnected (ManagerState.mk [] [7] [] 0 0) 7).1 7
        false).1.lazy
    ∧ 7 ∉ (completeConnection (ensureConnected (ManagerState.mk [] [7] [] 0 0) 7).1 7
        false).1.connected
    ∧ (ensureConnected (completeConnection
        (ensureConnected (ManagerState.mk [] [7] [] 0 0) 7).1 7 false).1 7).2 = .started (0 + 1)
    ∧ (ensureConnected (completeConnection
        (ensureConnected (ManagerState.mk [] [7] [] 0 0) 7).1 7 false).1 7).1.connectCalls
        = 0 + 2 :=
  C8_failed_lazy_attempt (ManagerState.mk [] [7] [] 0 0) 7 (by decide) (by decide) (by decide)

/-- Constructing another manager appends to the instance list, keeping the
first-constructed instance at its head. -/
theorem constructManager_preserves_head (g : GlobalManagers) (m : Nat)
    (h : g.instances.head? = some m) :
    (constructManager g).instances.head? = some m := by
  obtain ⟨inst, mi, ni⟩ := g
  cases inst with
  | nil => simp at h
  | cons a t => simpa [constructManager] using h

/-- Installing the singleton never replaces an existing one. -/
theorem constructManager_preserves_singleton (g : GlobalManagers) (m : Nat)
    (h : g.managerInstance = some m) :
    (constructManager g).managerInstance = some m := by
  simp [constructManager, h]

/-- After one or more constructions from the initial state, the singleton is
the first-constructed instance and stays the head of the instance list. -/
theorem iterate_constructManager_singleton (n : Nat) :
    (constructManager^[n + 1] initialGlobalManagers).managerInstance = some 0
    ∧ (constructManager^[n + 1] initialGlobalManagers).instances.head? = some 0 := by
  induction n with
  | zero =>
    simp [Function.iterate_one, constructManager, initialGlobalManagers]
  | succ k ih =>
    obtain ⟨h1, h2⟩ := ih
    constructor
    · rw [Function.iterate_succ_apply']
      exact constructManager_preserves_singleton _ _ h1
    · rw [Function.iterate_succ_apply']
      exact constructManager_preserves_head _ _ h2

/-- C10: the first `ConnectorManager` constructed in a process is installed
as the module-level singleton and never replaced, so every static method
(which dispatches through `managerInstance`) operates on the
first-constructed instance no matter how many instances are built later. -/
theorem C10_singleton_first_instance (n : Nat) :
    (∀ g m, g.managerInstance = some m → (constructManager g).managerInstance = some m)
    ∧ (constructManager^[n + 1] initialGlobalManagers).managerInstance = some 0
    ∧ (constructManager^[n + 1] initialGlobalManagers).instances.head? = some 0
    ∧ staticDispatchTarget (constructManager^[n + 1] initialGlobalManagers)
      = (constructManager^[n + 1] initialGlobalManagers).instances.head? :=
  ⟨fun g m h => constructManager_preserves_singleton g m h,
    (iterate_constructManager_singleton n).1,
    (iterate_constructManager_singleton n).2,
    by
      rw [(iterate_constructManager_singleton n).2]
      exact (iterate_constructManager_singleton n).1⟩

/-- Witness for C10: after three constructions the singleton is instance 0,
and an explicit singleton survives a further construction. -/
theorem C10_singleton_first_instance_witness :
    (constructManager (GlobalManagers.mk [0] (some 0) 1)).managerInstance = some 0
    ∧ (constructManager^[3] initialGlobalManagers).managerInstance = some 0
    ∧ (constructManager^[3] initialGlobalManagers).instances.head? = some 0
    ∧ staticDispatchTarget (constructManager^[3] initialGlobalManagers)
      = (constructManager^[3] initialGlobalManagers).instances.head? :=
  ⟨(C10_singleton_first_instance 2).1 (GlobalManagers.mk [0] (some 0) 1) 0 rfl,
    (C10_singleton_first_instance 2).2.1,
    (C10_singleton_first_instance 2).2.2.1,
    (C10_singleton_first_instance 2).2.2.2⟩

/-- A semicolon-free string is returned whole by the character split. -/
theorem splitOnSemi_no_semi (a : List Char) (h : ';' ∉ a) :
    splitOnSemi a = [a] := by
  induction a with
  | nil => rfl
  | cons c t ih =>
    have hc : c ≠ ';' := fun hc => h (hc ▸ List.mem_cons_self c t)
    have ht : ';' ∉ t := fun hm => h (List.mem_cons_of_mem c hm)
    simp [splitOnSemi, hc, ih ht]

/-- Every semicolon is a split point for the character split, regardless of
any surrounding quote or comment context. -/
theorem splitOnSemi_append (a b : List Char) (h : ';' ∉ a) :
    splitOnSemi (a ++ ';' :: b) = a :: splitOnSemi b := by
  induction a with
  | nil => simp [splitOnSemi]
  | cons c t ih =>
    have hc : c ≠ ';' := fun hc => h (hc ▸ List.mem_cons_self c t)
    have ht : ';' ∉ t := fun hm => h (List.mem_cons_of_mem c hm)
    simp [splitOnSemi, hc, ih ht]

/-- C4 counterexample: the batch `SELECT 'a;b'` contains one semicolon, and it
lies inside a single-quoted string literal; the handler's statement split
still produces a boundary there, yielding two fragments. -/
theorem C4_counterexample :
    splitSQLStatements "SELECT 'a;b'".data = ["SELECT 'a".data, "b'".data] := by decide

/-- C4 amended: statement splitting — in the execute_sql handler and in the
TDengine connector's executeSQL alike — is a plain character split on every
semicolon, with no awareness of strings or comments: any semicolon anywhere
splits, and the two splitters agree on every input. -/
theorem C4_amended_naive_split (sql a b : List Char)
    (ha : ';' ∉ a) (hb : ';' ∉ b) :
    tdengineSplitStatements sql = splitSQLStatements sql
    ∧ splitSQLStatements (a ++ ';' :: b)
      = ([a, b].map trimChars).filter (fun s => s ≠ []) := by
  refine ⟨rfl, ?_⟩
  unfold splitSQLStatements
  rw [splitOnSemi_append a b ha, splitOnSemi_no_semi b hb]

/-- Witness for C4 amended at the counterexample input. -/
theorem C4_amended_naive_split_witness :
    tdengineSplitStatements "SELECT 'a;b'".data = splitSQLStatements "SELECT 'a;b'".data
    ∧ splitSQLStatements ("SELECT 'a".data ++ ';' :: "b'".data)
      = (["SELECT 'a".data, "b'".data].map trimChars).filter (fun s => s ≠ []) :=
  C4_amended_naive_split "SELECT 'a;b'".data "SELECT 'a".data "b'".data
    (by decide) (by decide)

/-- C7 counterexample: `SHOW TABLES` classifies as read-only for the postgres
dialect as well, contradicting the claim that a statement with leading
keyword `show` is read-only only for the MySQL-family dialects and the
time-series dialect. -/
theorem C7_counterexample :
    isReadOnlySQL "SHOW TABLES".data ConnectorType.postgres = true := by decide

/-- C7 amended: the per-dialect allow-lists share the base `select`, `with`,
`explain`; `analyze` is present for every dialect except SQL Server and
TDengine; `show` is additionally present for postgres (not only the
MySQL-family and TDengine); `describe`/`desc` are MySQL-family and TDengine;
`pragma` is SQLite-only and `showplan` SQL-Server-only.  Consequently a
PRAGMA statement classifies as read-only exactly for SQLite, and a SHOW
statement exactly for postgres, MySQL-family and TDengine. -/
theorem C7_amended_keyword_lists :
    (∀ d, isReadOnlySQL "PRAGMA table_info(t)".data d = decide (d = ConnectorType.sqlite))
    ∧ (∀ d, isReadOnlySQL "SHOW TABLES".data d
        = decide (d = ConnectorType.postgres ∨ d = ConnectorType.mysql
          ∨ d = ConnectorType.mariadb ∨ d = ConnectorType.tdengine))
    ∧ (∀ d, "select".data ∈ allowedKeywords d ∧ "with".data ∈ allowedKeywords d
        ∧ "explain".data ∈ allowedKeywords d)
    ∧ (∀ d, "analyze".data ∈ allowedKeywords d
        ↔ (d ≠ ConnectorType.sqlserver ∧ d ≠ ConnectorType.tdengine))
    ∧ (∀ d, "show".data ∈ allowedKeywords d
        ↔ (d ≠ ConnectorType.sqlite ∧ d ≠ ConnectorType.sqlserver))
    ∧ (∀ d, "describe".data ∈ allowedKeywords d
        ↔ (d = ConnectorType.mysql ∨ d = ConnectorType.mariadb ∨ d = ConnectorType.tdengine))
    ∧ (∀ d, "desc".data ∈ allowedKeywords d
        ↔ (d = ConnectorType.mysql ∨ d = ConnectorType.mariadb ∨ d = ConnectorType.tdengine))
    ∧ (∀ d, "pragma".data ∈ allowedKeywords d ↔ d = ConnectorType.sqlite)
    ∧ (∀ d, "showplan".data ∈ allowedKeywords d ↔ d = ConnectorType.sqlserver) := by
  refine ⟨?_, ?_, ?_, ?_, ?_, ?_, ?_, ?_, ?_⟩ <;> intro d <;> cases d <;> decide

/-- Escaping produces the empty string only from the empty identifier. -/
theorem escQuote_eq_nil_iff (q : Char) (l : List Char) : escQuote q l = [] ↔ l = [] := by
  cases l with
  | nil => simp [escQuote]
  | cons c r => by_cases h : c = q <;> simp [escQuote, h]

/-- Collapsing doubled escape characters undoes the quoting escape. -/
theorem collapseEsc_escQuote (q : Char) (l : List Char) :
    collapseEsc q (escQuote q l) = l := by
  induction l with
  | nil => rfl
  | cons c r ih =>
    by_cases h : c = q
    · subst h
      simp [escQuote, collapseEsc, ih]
    · cases hr : escQuote q r with
      | nil =>
        have hnil : r = [] := (escQuote_eq_nil_iff q r).1 hr
        subst hnil
        simp [escQuote, h, collapseEsc]
      | cons d t =>
        have hcd : ¬(c = q ∧ d = q) := fun hand => h hand.1
        simp only [escQuote, if_neg h, hr, collapseEsc, if_neg hcd]
        rw [← hr, ih]

/-- C9: for every dialect, quoting a non-empty identifier free of control
characters succeeds, and stripping the outer delimiters then collapsing the
dialect's doubled escape character recovers the identifier exactly. -/
theorem C9_quote_unquote_roundtrip (d : ConnectorType) (ident : List Char)
    (hne : ident ≠ []) (hctl : ∀ c ∈ ident, 32 ≤ c.toNat) :
    ∃ q, quoteIdentifier ident d = .ok q ∧ unquoteIdentifier q d = ident := by
  have hbad : ident.any isBadIdentChar = false := by
    rw [List.any_eq_false]
    intro c hc
    have h32 := hctl c hc
    have hk : ∀ k : Char, k.toNat < 32 → c ≠ k :=
      fun k hklt hek => absurd (hek ▸ h32) (by omega)
    simp [isBadIdentChar, hk '\x00' (by decide), hk '\x08' (by decide),
      hk '\x09' (by decide), hk '\x1a' (by decide), hk '\n' (by decide),
      hk '\r' (by decide)]
  cases d
  case postgres =>
    refine ⟨'"' :: (escQuote '"' ident ++ ['"']), ?_, ?_⟩
    · simp [quoteIdentifier, quoteChars, hbad, hne]
    · simp [unquoteIdentifier, quoteChars, collapseEsc_escQuote]
  case sqlite =>
    refine ⟨'"' :: (escQuote '"' ident ++ ['"']), ?_, ?_⟩
    · simp [quoteIdentifier, quoteChars, hbad, hne]
    · simp [unquoteIdentifier, quoteChars, collapseEsc_escQuote]
  case mysql =>
    refine ⟨'`' :: (escQuote '`' ident ++ ['`']), ?_, ?_⟩
    · simp [quoteIdentifier, quoteChars, hbad, hne]
    · simp [unquoteIdentifier, quoteChars, collapseEsc_escQuote]
  case mariadb =>
    refine ⟨'`' :: (escQuote '`' ident ++ ['`']), ?_, ?_⟩
    · simp [quoteIdentifier, quoteChars, hbad, hne]
    · simp [unquoteIdentifier, quoteChars, collapseEsc_escQuote]
  case tdengine =>
    refine ⟨'`' :: (escQuote '`' ident ++ ['`']), ?_, ?_⟩
    · simp [quoteIdentifier, quoteChars, hbad, hne]
    · simp [unquoteIdentifier, quoteChars, collapseEsc_escQuote]
  case sqlserver =>
    refine ⟨'[' :: (escQuote ']' ident ++ [']']), ?_, ?_⟩
    · simp [quoteIdentifier, quoteChars, hbad, hne]
    · simp [unquoteIdentifier, quoteChars, collapseEsc_escQuote]

/-- Witness for C9: round-trip of an identifier containing the dialect's own
quote character, for the double-quote, backtick and bracket conventions. -/
theorem C9_quote_unquote_roundtrip_witness :
    (∃ q, quoteIdentifier "my\"table".data ConnectorType.postgres = .ok q
      ∧ unquoteIdentifier q ConnectorType.postgres = "my\"table".data)
    ∧ (∃ q, quoteIdentifier "my`table".data ConnectorType.mysql = .ok q
      ∧ unquoteIdentifier q ConnectorType.mysql = "my`table".data)
    ∧ (∃ q, quoteIdentifier "my]table".data ConnectorType.sqlserver = .ok q
      ∧ unquoteIdentifier q ConnectorType.sqlserver = "my]table".data) :=
  ⟨C9_quote_unquote_roundtrip .postgres "my\"table".data (by decide) (by decide),
    C9_quote_unquote_roundtrip .mysql "my`table".data (by decide) (by decide),
    C9_quote_unquote_roundtrip .sqlserver "my]table".data (by decide) (by decide)⟩

/-- Scanning in string mode consumes the literal's content up to its closing
quote and resumes normal scanning, emitting nothing. -/
theorem stripGo_single_append (s rest : List Char) (hs : ∀ c ∈ s, c ≠ '\'') :
    stripGo .single (s ++ '\'' :: rest) = stripGo .normal rest := by
  induction s with
  | nil =>
    cases rest with
    | nil => rfl
    | cons c2 r2 =>
      by_cases h2 : c2 = '\''
      · subst h2
        cases r2 with
        | nil => simp [stripGo]
        | cons c3 r3 => simp [stripGo]
      · simp [stripGo, h2]
  | cons c s' ih =>
    have hc : c ≠ '\'' := hs c (List.mem_cons_self c s')
    have hs' : ∀ x ∈ s', x ≠ '\'' := fun x hx => hs x (List.mem_cons_of_mem c hx)
    cases hx : s' ++ '\'' :: rest with
    | nil => exact absurd hx (by simp)
    | cons y ys =>
      calc stripGo .single (c :: (s' ++ '\'' :: rest))
          = stripGo .single (c :: y :: ys) := by rw [hx]
        _ = stripGo .single (y :: ys) := by simp [stripGo, hc]
        _ = stripGo .single (s' ++ '\'' :: rest) := by rw [hx]
        _ = stripGo .normal rest := ih hs'

/-- A single-quoted string literal at the head of a statement is removed
entirely by the tokenizer. -/
theorem strip_string_head (s rest : List Char) (hs : ∀ c ∈ s, c ≠ '\'') :
    stripCommentsAndStrings ('\'' :: (s ++ '\'' :: rest)) = stripCommentsAndStrings rest := by
  unfold stripCommentsAndStrings
  cases hx : s ++ '\'' :: rest with
  | nil => exact absurd hx (by simp)
  | cons y ys =>
    have h1 : stripGo .normal ('\'' :: y :: ys) = stripGo .single (y :: ys) := by
      simp [stripGo]
    rw [h1, ← hx]
    exact stripGo_single_append s rest hs

/-- Scanning in block-comment mode consumes the content up to the closing
delimiter and resumes normal scanning. -/
theorem stripGo_block_append (s rest : List Char) (hs : ∀ c ∈ s, c ≠ '*') :
    stripGo .block (s ++ '*' :: '/' :: rest) = stripGo .normal rest := by
  induction s with
  | nil => simp [stripGo]
  | cons c s' ih =>
    have hc : c ≠ '*' := hs c (List.mem_cons_self c s')
    have hs' : ∀ x ∈ s', x ≠ '*' := fun x hx => hs x (List.mem_cons_of_mem c hx)
    cases hx : s' ++ '*' :: '/' :: rest with
    | nil => exact absurd hx (by simp)
    | cons y ys =>
      calc stripGo .block (c :: (s' ++ '*' :: '/' :: rest))
          = stripGo .block (c :: y :: ys) := by rw [hx]
        _ = stripGo .block (y :: ys) := by simp [stripGo, hc]
        _ = stripGo .block (s' ++ '*' :: '/' :: rest) := by rw [hx]
        _ = stripGo .normal rest := ih hs'

/-- A block comment at the head of a statement is replaced by one space. -/
theorem strip_comment_head (s rest : List Char) (hs : ∀ c ∈ s, c ≠ '*') :
    stripCommentsAndStrings ('/' :: '*' :: (s ++ '*' :: '/' :: rest))
      = ' ' :: stripCommentsAndStrings rest := by
  unfold stripCommentsAndStrings
  have h1 : stripGo .normal ('/' :: '*' :: (s ++ '*' :: '/' :: rest))
      = ' ' :: stripGo .block (s ++ '*' :: '/' :: rest) := by simp [stripGo]
  rw [h1, stripGo_block_append s rest hs]

/-- Detection only looks at the cleaned statement. -/
theorem detectParameterStyle_strip_congr (a b : List Char)
    (h : stripCommentsAndStrings a = stripCommentsAndStrings b) :
    detectParameterStyle a = detectParameterStyle b := by
  unfold detectParameterStyle
  rw [h]

/-- Counting only looks at the cleaned statement. -/
theorem countParameters_strip_congr (a b : List Char)
    (h : stripCommentsAndStrings a = stripCommentsAndStrings b) :
    countParameters a = countParameters b := by
  unfold countParameters
  rw [h, detectParameterStyle_strip_congr a b h]

/-- A leading space does not affect the numbered-placeholder test. -/
theorem hasNumbered_space (l : List Char) : hasNumbered (' ' :: l) = hasNumbered l := by
  cases l <;> simp [hasNumbered]

/-- A leading space does not affect the named-placeholder test. -/
theorem hasNamed_space (l : List Char) : hasNamed (' ' :: l) = hasNamed l := by
  cases l with
  | nil => rfl
  | cons c2 r2 => cases r2 <;> simp [hasNamed]

/-- A leading space does not affect the extracted numbered indices. -/
theorem numberedIndices_space (l : List Char) :
    numberedIndices (' ' :: l) = numberedIndices l := by
  simp [numberedIndices, numGo]

/-- A leading space does not affect the extracted named indices. -/
theorem namedIndices_space (l : List Char) :
    namedIndices (' ' :: l) = namedIndices l := by
  simp [namedIndices, namGo]

/-- Detection sees through a cleaned statement that gained a leading space
(the residue of a stripped block comment). -/
theorem detectParameterStyle_space (a b : List Char)
    (h : stripCommentsAndStrings a = ' ' :: stripCommentsAndStrings b) :
    detectParameterStyle a = detectParameterStyle b := by
  unfold detectParameterStyle
  rw [h]
  simp [hasNumbered_space, hasNamed_space, List.contains_cons]

/-- Counting sees through a cleaned statement that gained a leading space. -/
theorem countParameters_space (a b : List Char)
    (h : stripCommentsAndStrings a = ' ' :: stripCommentsAndStrings b) :
    countParameters a = countParameters b := by
  have hd := detectParameterStyle_space a b h
  unfold countParameters
  rw [h, hd]
  cases hdet : detectParameterStyle b <;>
    simp [hdet, numberedIndices_space, namedIndices_space, List.count_cons]

/-- C5: placeholders occurring only inside string literals or comments are
neither detected as a parameter style nor counted: a single-quoted literal is
removed whole by the tokenizer before detection and counting, a block
comment leaves only a space, and in particular the claim's statement with
`$1` both inside a literal and as a real placeholder detects as numbered
with a count of 1, not 2. -/
theorem C5_literal_placeholders_not_counted (s rest s2 rest2 : List Char)
    (hs : ∀ c ∈ s, c ≠ '\'') (hs2 : ∀ c ∈ s2, c ≠ '*') :
    detectParameterStyle ('\'' :: (s ++ '\'' :: rest)) = detectParameterStyle rest
    ∧ countParameters ('\'' :: (s ++ '\'' :: rest)) = countParameters rest
    ∧ detectParameterStyle ('/' :: '*' :: (s2 ++ '*' :: '/' :: rest2))
      = detectParameterStyle rest2
    ∧ countParameters ('/' :: '*' :: (s2 ++ '*' :: '/' :: rest2)) = countParameters rest2
    ∧ detectParameterStyle "SELECT 'price is $1' FROM t WHERE id = $1".data = .numbered
    ∧ countParameters "SELECT 'price is $1' FROM t WHERE id = $1".data = .ok 1 :=
  ⟨detectParameterStyle_strip_congr _ _ (strip_string_head s rest hs),
    countParameters_strip_congr _ _ (strip_string_head s rest hs),
    detectParameterStyle_space _ _ (strip_comment_head s2 rest2 hs2),
    countParameters_space _ _ (strip_comment_head s2 rest2 hs2),
    by decide, by rfl⟩

/-- Witness for C5 with a placeholder-bearing literal and comment. -/
theorem C5_literal_placeholders_not_counted_witness :
    detectParameterStyle ('\'' :: ("$9".data ++ '\'' :: " id = $1".data))
      = detectParameterStyle " id = $1".data
    ∧ countParameters ('\'' :: ("$9".data ++ '\'' :: " id = $1".data))
      = countParameters " id = $1".data
    ∧ detectParameterStyle ('/' :: '*' :: ("$9".data ++ '*' :: '/' :: " id = $1".data))
      = detectParameterStyle " id = $1".data
    ∧ countParameters ('/' :: '*' :: ("$9".data ++ '*' :: '/' :: " id = $1".data))
      = countParameters " id = $1".data
    ∧ detectParameterStyle "SELECT 'price is $1' FROM t WHERE id = $1".data = .numbered
    ∧ countParameters "SELECT 'price is $1' FROM t WHERE id = $1".data = .ok 1 :=
  C5_literal_placeholders_not_counted "$9".data " id = $1".data "$9".data " id = $1".data
    (by decide) (by decide)

/-- The seed is a lower bound of a left max-fold. -/
theorem le_foldl_max (l : List Nat) : ∀ a, a ≤ l.foldl max a := by
  induction l with
  | nil => intro a; exact Nat.le_refl a
  | cons b t ih =>
    intro a
    calc a ≤ max a b := Nat.le_max_left a b
      _ ≤ t.foldl max (max a b) := ih (max a b)

/-- Every member is a lower bound of a left max-fold. -/
theorem mem_le_foldl_max (l : List Nat) : ∀ (a x : Nat), x ∈ l → x ≤ l.foldl max a := by
  induction l with
  | nil => intro a x hx; cases hx
  | cons b t ih =>
    intro a x hx
    rcases List.mem_cons.1 hx with h | h
    · subst h
      calc x ≤ max a x := Nat.le_max_right a x
        _ ≤ t.foldl max (max a x) := le_foldl_max t (max a x)
    · exact ih (max a b) x h

/-- Every member of a list of indices is at most `listMax`. -/
theorem le_listMax (l : List Nat) (x : Nat) (h : x ∈ l) : x ≤ listMax l :=
  mem_le_foldl_max l 0 x h

/-- Membership in a step-one range, in bound form. -/
theorem mem_range'_iff (s n m : Nat) : m ∈ List.range' s n ↔ s ≤ m ∧ m < s + n := by
  rw [List.mem_range']
  constructor
  · rintro ⟨i, hi, rfl⟩
    omega
  · rintro ⟨h1, h2⟩
    exact ⟨m - s, by omega, by omega⟩

/-- `find?` over a step-one range returns the least element satisfying the
predicate. -/
theorem find?_range'_first (p : Nat → Bool) :
    ∀ (n s i : Nat), s ≤ i → i < s + n → p i = true →
      (∀ j, s ≤ j → j < i → p j = false) →
      (List.range' s n).find? p = some i := by
  intro n
  induction n with
  | zero => intro s i h1 h2 _ _; omega
  | succ k ih =>
    intro s i h1 h2 hp hmin
    rw [List.range'_succ]
    by_cases hsi : s = i
    · subst hsi
      exact List.find?_cons_of_pos _ hp
    · have hps : p s = false := hmin s (Nat.le_refl s) (by omega)
      rw [List.find?_cons_of_neg _ (by simp [hps])]
      exact ih (s + 1) i (by omega) (by omega) hp (fun j hj1 hj2 => hmin j (by omega) hj2)

/-- A scan inside a digit run always emits at least one index. -/
theorem numGo_num_ne_nil (l : List Char) : ∀ a, numGo (.num a) l ≠ [] := by
  induction l with
  | nil => intro a; simp [numGo]
  | cons c r ih =>
    intro a
    by_cases hd : c.isDigit <;> by_cases hc : c = '$' <;> simp [numGo, hd, hc, ih]

/-- If the numbered-placeholder test succeeds, the index scan emits at least
one index, from the plain state and from the just-after-`$` state alike. -/
theorem hasNumbered_numGo_ne_nil (l : List Char) :
    hasNumbered l = true → numGo .plain l ≠ [] ∧ numGo .dollar l ≠ [] := by
  induction l with
  | nil => intro h; cases h
  | cons c r ih =>
    intro h
    cases r with
    | nil => simp [hasNumbered] at h
    | cons c2 r2 =>
      by_cases hc : c = '$'
      · subst hc
        by_cases hd : c2.isDigit
        · constructor
          · simp [numGo, hd]
            exact numGo_num_ne_nil r2 (digitVal c2)
          · simp [numGo, hd]
            exact numGo_num_ne_nil r2 (digitVal c2)
        · have h' : hasNumbered (c2 :: r2) = true := by
            simpa [hasNumbered, hd] using h
          obtain ⟨hp, hq⟩ := ih h'
          constructor
          · simpa [numGo] using hq
          · simpa [numGo] using hq
      · have h' : hasNumbered (c2 :: r2) = true := by
          simpa [hasNumbered, hc] using h
        obtain ⟨hp, hq⟩ := ih h'
        constructor
        · simpa [numGo, hc] using hp
        · by_cases hd : c.isDigit
          · simp [numGo, hd]
            exact numGo_num_ne_nil (c2 :: r2) (digitVal c)
          · simpa [numGo, hd, hc] using hp

/-- A named scan inside a digit run always emits at least one index. -/
theorem namGo_num_ne_nil (l : List Char) : ∀ a, namGo (.num a) l ≠ [] := by
  induction l with
  | nil => intro a; simp [namGo]
  | cons c r ih =>
    intro a
    by_cases hd : c.isDigit <;> by_cases hc : c = '@' <;> simp [namGo, hd, hc, ih]

/-- If the named-placeholder test succeeds, the named index scan emits at
least one index from each non-accumulating state. -/
theorem hasNamed_namGo_ne_nil (l : List Char) :
    hasNamed l = true →
      namGo .plain l ≠ [] ∧ namGo .at l ≠ [] ∧ namGo .atp l ≠ [] := by
  induction l with
  | nil => intro h; cases h
  | cons c r ih =>
    intro h
    cases r with
    | nil => simp [hasNamed] at h
    | cons c2 r2 =>
      cases r2 with
      | nil => simp [hasNamed] at h
      | cons c3 r3 =>
        by_cases hc : c = '@'
        · subst hc
          by_cases hc2 : c2 = 'p'
          · subst hc2
            by_cases hd : c3.isDigit
            · refine ⟨?_, ?_, ?_⟩ <;>
                simp [namGo, hd] <;> exact namGo_num_ne_nil r3 (digitVal c3)
            · have h' : hasNamed ('p' :: c3 :: r3) = true := by
                simpa [hasNamed, hd] using h
              obtain ⟨hp, ha, hap⟩ := ih h'
              refine ⟨?_, ?_, ?_⟩ <;> simpa [namGo] using ha
          · have h' : hasNamed (c2 :: c3 :: r3) = true := by
              simpa [hasNamed, hc2] using h
            obtain ⟨hp, ha, hap⟩ := ih h'
            refine ⟨?_, ?_, ?_⟩ <;> simpa [namGo] using ha
        · have h' : hasNamed (c2 :: c3 :: r3) = true := by
            simpa [hasNamed, hc] using h
          obtain ⟨hp, ha, hap⟩ := ih h'
          refine ⟨?_, ?_, ?_⟩
          · simpa [namGo, hc] using hp
          · by_cases hc2 : c = 'p'
            · simpa [namGo, hc2, hc] using hap
            · simpa [namGo, hc2, hc] using hp
          · by_cases hd : c.isDigit
            · simp [namGo, hd]
              exact namGo_num_ne_nil (c2 :: c3 :: r3) (digitVal c)
            · simpa [namGo, hd, hc] using hp

/-- Detecting the numbered style means the numbered test succeeded on the
cleaned statement. -/
theorem detect_numbered_hasNumbered (stmt : List Char)
    (h : detectParameterStyle stmt = .numbered) :
    hasNumbered (stripCommentsAndStrings stmt) = true := by
  by_cases h1 : hasNumbered (stripCommentsAndStrings stmt) = true
  · exact h1
  · exfalso
    unfold detectParameterStyle at h
    split_ifs at h

/-- Detecting the named style means the named test succeeded on the cleaned
statement. -/
theorem detect_named_hasNamed (stmt : List Char)
    (h : detectParameterStyle stmt = .named) :
    hasNamed (stripCommentsAndStrings stmt) = true := by
  by_cases h2 : hasNamed (stripCommentsAndStrings stmt) = true
  · exact h2
  · exfalso
    unfold detectParameterStyle at h
    split_ifs at h

/-- The sequential-index check of `countParameters` answers `ok k` exactly
when `k` is the maximum referenced index and every index from 1 to the
maximum is referenced. -/
theorem seqMatch_ok_iff (ns : List Nat) (err : Nat → CountError) (k : Nat) :
    ((match (List.range' 1 (listMax ns)).find? (fun i => !ns.contains i) with
      | some i => Except.error (err i)
      | none => Except.ok (listMax ns)) = Except.ok k)
    ↔ (k = listMax ns ∧ ∀ i, 1 ≤ i → i ≤ listMax ns → i ∈ ns) := by
  cases hf : (List.range' 1 (listMax ns)).find? (fun i => !ns.contains i) with
  | some i =>
    simp only [hf]
    constructor
    · intro h
      cases h
    · rintro ⟨hk, hall⟩
      have hp := List.find?_some hf
      have hm : i ∈ List.range' 1 (listMax ns) := List.mem_of_find?_eq_some hf
      rw [mem_range'_iff] at hm
      have hmem : i ∈ ns := hall i (by omega) (by omega)
      simp [List.contains, hmem] at hp
  | none =>
    simp only [hf]
    constructor
    · intro h
      have hk : listMax ns = k := by
        cases h
        rfl
      refine ⟨hk.symm, ?_⟩
      have hnone := List.find?_eq_none.1 hf
      intro i h1 h2
      have hm : i ∈ List.range' 1 (listMax ns) := (mem_range'_iff _ _ _).2 ⟨h1, by omega⟩
      have := hnone i hm
      simpa [List.contains] using this
    · rintro ⟨hk, _⟩
      rw [hk]

/-- The sequential-index check errors on the least missing index. -/
theorem seqMatch_error_first_missing (ns : List Nat) (err : Nat → CountError) (i : Nat)
    (h1 : 1 ≤ i) (h2 : i ≤ listMax ns) (h3 : i ∉ ns)
    (h4 : ∀ j, 1 ≤ j → j < i → j ∈ ns) :
    (match (List.range' 1 (listMax ns)).find? (fun i => !ns.contains i) with
      | some i => Except.error (err i)
      | none => Except.ok (listMax ns)) = Except.error (err i) := by
  have hf := find?_range'_first (fun j => !ns.contains j) (listMax ns) 1 i h1 (by omega)
    (by simp [List.contains, h3]) (fun j hj1 hj2 => by simp [List.contains, h4 j hj1 hj2])
  rw [hf]

/-- In the numbered case `countParameters` is the sequential-index check of
the extracted indices. -/
theorem countParameters_numbered_eq (stmt : List Char) (n : Nat) (ns' : List Nat)
    (hdet : detectParameterStyle stmt = .numbered)
    (heq : numberedIndices (stripCommentsAndStrings stmt) = n :: ns') :
    countParameters stmt =
      (match (List.range' 1 (listMax (n :: ns'))).find? (fun i => !(n :: ns').contains i) with
        | some i => Except.error (CountError.missingNumbered i)
        | none => Except.ok (listMax (n :: ns'))) := by
  unfold countParameters
  rw [hdet, heq]

/-- In the named case `countParameters` is the sequential-index check of the
extracted indices. -/
theorem countParameters_named_eq (stmt : List Char) (n : Nat) (ns' : List Nat)
    (hdet : detectParameterStyle stmt = .named)
    (heq : namedIndices (stripCommentsAndStrings stmt) = n :: ns') :
    countParameters stmt =
      (match (List.range' 1 (listMax (n :: ns'))).find? (fun i => !(n :: ns').contains i) with
        | some i => Except.error (CountError.missingNamed i)
        | none => Except.ok (listMax (n :: ns'))) := by
  unfold countParameters
  rw [hdet, heq]

/-- C6 counterexample: on a statement referencing `$0` and `$1`,
`countParameters` returns the maximum referenced index 1 even though the set
of referenced indices is {0, 1}, not {1} = {1, ..., max}: the claim's
"exactly when the set of referenced indices equals {1, ..., max}"
biconditional fails, because indices below 1 are ignored by the
validation. -/
theorem C6_counterexample :
    detectParameterStyle "SELECT a FROM t WHERE a = $0 AND b = $1".data = .numbered
    ∧ countParameters "SELECT a FROM t WHERE a = $0 AND b = $1".data = .ok 1
    ∧ numberedIndices (stripCommentsAndStrings
        "SELECT a FROM t WHERE a = $0 AND b = $1".data) = [0, 1]
    ∧ (0 : Nat) ∈ numberedIndices (stripCommentsAndStrings
        "SELECT a FROM t WHERE a = $0 AND b = $1".data) :=
  ⟨by rfl, by rfl, by rfl, by decide⟩

/-- C6 amended: for numbered/named statements, `countParameters` returns the
maximum referenced index exactly when every integer from 1 to that maximum
is referenced (repeats allowed; indices below 1 are ignored by the
validation), and when some integer between 1 and the maximum is not
referenced it errors naming the first missing index — e.g. `$1 … $3` with no
`$2` errors mentioning `$2`. -/
theorem C6_amended_sequential_validation (stmt : List Char) :
    (detectParameterStyle stmt = .numbered →
      numberedIndices (stripCommentsAndStrings stmt) ≠ []
      ∧ (∀ k, countParameters stmt = .ok k ↔
          (k = listMax (numberedIndices (stripCommentsAndStrings stmt))
            ∧ ∀ i, 1 ≤ i → i ≤ listMax (numberedIndices (stripCommentsAndStrings stmt))
              → i ∈ numberedIndices (stripCommentsAndStrings stmt)))
      ∧ (∀ i, 1 ≤ i → i ≤ listMax (numberedIndices (stripCommentsAndStrings stmt))
          → i ∉ numberedIndices (stripCommentsAndStrings stmt)
          → (∀ j, 1 ≤ j → j < i → j ∈ numberedIndices (stripCommentsAndStrings stmt))
          → countParameters stmt = .error (.missingNumbered i)))
    ∧ (detectParameterStyle stmt = .named →
      namedIndices (stripCommentsAndStrings stmt) ≠ []
      ∧ (∀ k, countParameters stmt = .ok k ↔
          (k = listMax (namedIndices (stripCommentsAndStrings stmt))
            ∧ ∀ i, 1 ≤ i → i ≤ listMax (namedIndices (stripCommentsAndStrings stmt))
              → i ∈ namedIndices (stripCommentsAndStrings stmt)))
      ∧ (∀ i, 1 ≤ i → i ≤ listMax (namedIndices (stripCommentsAndStrings stmt))
          → i ∉ namedIndices (stripCommentsAndStrings stmt)
          → (∀ j, 1 ≤ j → j < i → j ∈ namedIndices (stripCommentsAndStrings stmt))
          → countParameters stmt = .error (.missingNamed i)))
    ∧ countParameters "SELECT a FROM t WHERE a = $1 AND b = $3".data
      = .error (.missingNumbered 2) := by
  refine ⟨?_, ?_, by rfl⟩
  · intro hdet
    have hh := detect_numbered_hasNumbered stmt hdet
    have hne : numberedIndices (stripCommentsAndStrings stmt) ≠ [] :=
      (hasNumbered_numGo_ne_nil _ hh).1
    cases hcase : numberedIndices (stripCommentsAndStrings stmt) with
    | nil => exact absurd hcase hne
    | cons n ns' =>
      refine ⟨List.cons_ne_nil n ns', ?_, ?_⟩
      · intro k
        rw [countParameters_numbered_eq stmt n ns' hdet hcase, seqMatch_ok_iff]
      · intro i h1 h2 h3 h4
        rw [countParameters_numbered_eq stmt n ns' hdet hcase]
        exact seqMatch_error_first_missing (n :: ns') CountError.missingNumbered i h1 h2 h3 h4
  · intro hdet
    have hh := detect_named_hasNamed stmt hdet
    have hne : namedIndices (stripCommentsAndStrings stmt) ≠ [] :=
      (hasNamed_namGo_ne_nil _ hh).1
    cases hcase : namedIndices (stripCommentsAndStrings stmt) with
    | nil => exact absurd hcase hne
    | cons n ns' =>
      refine ⟨List.cons_ne_nil n ns', ?_, ?_⟩
      · intro k
        rw [countParameters_named_eq stmt n ns' hdet hcase, seqMatch_ok_iff]
      · intro i h1 h2 h3 h4
        rw [countParameters_named_eq stmt n ns' hdet hcase]
        exact seqMatch_error_first_missing (n :: ns') CountError.missingNamed i h1 h2 h3 h4

/-- Witness for C6 amended: on `$1 … $2` the detect hypothesis holds, the
index list is non-empty, and `ok 2` yields the characterization. -/
theorem C6_amended_sequential_validation_witness :
    numberedIndices (stripCommentsAndStrings "SELECT x WHERE a = $1 AND b = $2".data) ≠ []
    ∧ (2 = listMax (numberedIndices (stripCommentsAndStrings
          "SELECT x WHERE a = $1 AND b = $2".data))
      ∧ ∀ i, 1 ≤ i
          → i ≤ listMax (numberedIndices (stripCommentsAndStrings
              "SELECT x WHERE a = $1 AND b = $2".data))
          → i ∈ numberedIndices (stripCommentsAndStrings
              "SELECT x WHERE a = $1 AND b = $2".data)) :=
  ⟨((C6_amended_sequential_validation "SELECT x WHERE a = $1 AND b = $2".data).1 (by rfl)).1,
    (((C6_amended_sequential_validation "SELECT x WHERE a = $1 AND b = $2".data).1
      (by rfl)).2.1 2).mp (by rfl)⟩

/-- The digit character of a value below ten is a digit. -/
theorem digitChar_isDigit (d : Nat) (h : d < 10) : (digitChar d).isDigit = true := by
  interval_cases d <;> decide

/-- Reading back the digit character of a value below ten gives the value. -/
theorem digitVal_digitChar (d : Nat) (h : d < 10) : digitVal (digitChar d) = d := by
  interval_cases d <;> decide

/-- Appending one digit multiplies the value by ten and adds the digit. -/
theorem valOfDigits_append_digit (xs : List Char) (c : Char) :
    valOfDigits (xs ++ [c]) = 10 * valOfDigits xs + digitVal c := by
  simp [valOfDigits, List.foldl_append]

/-- With sufficient fuel the decimal rendering evaluates back to its input,
is non-empty, and consists of digits. -/
theorem natCharsAux_spec :
    ∀ fuel n, n < fuel →
      valOfDigits (natCharsAux fuel n) = n
      ∧ natCharsAux fuel n ≠ []
      ∧ ∀ c ∈ natCharsAux fuel n, c.isDigit = true := by
  intro fuel
  induction fuel with
  | zero => intro n h; omega
  | succ f ih =>
    intro n h
    by_cases h10 : n < 10
    · refine ⟨?_, ?_, ?_⟩
      · simp [natCharsAux, h10, valOfDigits, digitVal_digitChar n h10]
      · simp [natCharsAux, h10]
      · intro c hc
        simp [natCharsAux, h10] at hc
        rw [hc]
        exact digitChar_isDigit n h10
    · have hf : n / 10 < f := by omega
      obtain ⟨hv, hn, hd⟩ := ih (n / 10) hf
      have hmod : n % 10 < 10 := Nat.mod_lt n (by omega)
      refine ⟨?_, ?_, ?_⟩
      · rw [natCharsAux]
        rw [if_neg h10, valOfDigits_append_digit, hv, digitVal_digitChar _ hmod]
        omega
      · rw [natCharsAux, if_neg h10]
        simp
      · intro c hc
        rw [natCharsAux, if_neg h10] at hc
        rcases List.mem_append.1 hc with hm | hm
        · exact hd c hm
        · rw [List.mem_singleton.1 hm]
          exact digitChar_isDigit _ hmod

/-- Decimal rendering round-trips through digit-string evaluation. -/
theorem valOfDigits_natChars (n : Nat) : valOfDigits (natChars n) = n :=
  (natCharsAux_spec (n + 1) n (by omega)).1

/-- The decimal rendering is never empty. -/
theorem natChars_ne_nil (n : Nat) : natChars n ≠ [] :=
  (natCharsAux_spec (n + 1) n (by omega)).2.1

/-- Every character of the decimal rendering is a digit. -/
theorem natChars_digits (n : Nat) : ∀ c ∈ natChars n, c.isDigit = true :=
  (natCharsAux_spec (n + 1) n (by omega)).2.2

/-- A digit character is not whitespace. -/
theorem digit_not_ws (c : Char) (h : c.isDigit = true) : c.isWhitespace = false := by
  by_contra hw
  have hw' : c.isWhitespace = true := by
    revert hw
    cases c.isWhitespace <;> simp
  have hcs : ((c = ' ' ∨ c = '\t') ∨ c = '\r') ∨ c = '\n' := by
    simpa [Char.isWhitespace] using hw'
  rcases hcs with ((rfl | rfl) | rfl) | rfl <;> exact absurd h (by decide)

/-- Scanning the reversal of `<digits> LIMIT <space>` followed by anything
recognizes the limit clause: the scan returns the remainder (right-trimmed,
reversed back) and the value of the digit run. -/
theorem limitRevScan_digit_run (D a : List Char) (hne : D ≠ [])
    (hdig : ∀ c ∈ D, c.isDigit = true) :
    limitRevScan (D ++ ' ' :: 'T' :: 'I' :: 'M' :: 'I' :: 'L' :: ' ' :: a)
      = some ((a.dropWhile Char.isWhitespace).reverse, valOfDigits D.reverse) := by
  cases D with
  | nil => exact absurd rfl hne
  | cons d t =>
    have hd : d.isDigit = true := hdig d (List.mem_cons_self d t)
    have h1 : ((d :: t) ++ (' ' :: 'T' :: 'I' :: 'M' :: 'I' :: 'L' :: ' ' :: a)).dropWhile
        Char.isWhitespace = (d :: t) ++ (' ' :: 'T' :: 'I' :: 'M' :: 'I' :: 'L' :: ' ' :: a) := by
      rw [List.cons_append]
      rw [List.dropWhile_cons_of_neg (by simp [digit_not_ws d hd])]
    have h2 : ((d :: t) ++ (' ' :: 'T' :: 'I' :: 'M' :: 'I' :: 'L' :: ' ' :: a)).takeWhile
        Char.isDigit = d :: t := by
      rw [List.takeWhile_append_of_pos hdig]
      rw [List.takeWhile_cons_of_neg (by decide), List.append_nil]
    have h3 : ((d :: t) ++ (' ' :: 'T' :: 'I' :: 'M' :: 'I' :: 'L' :: ' ' :: a)).dropWhile
        Char.isDigit = ' ' :: 'T' :: 'I' :: 'M' :: 'I' :: 'L' :: ' ' :: a := by
      rw [List.dropWhile_append_of_pos hdig]
      rw [List.dropWhile_cons_of_neg (by decide)]
    simp only [limitRevScan, h1, h2, h3]
    rw [List.dropWhile_cons_of_neg (by decide : ¬(('T').isWhitespace = true))]
    simp [List.dropWhile_cons_of_pos (by decide : ((' ')).isWhitespace = true)]

/-- Appending ` LIMIT k` to any statement produces a statement whose trailing
limit parses back as exactly `k`. -/
theorem effectiveLimit_append (x : List Char) (k : Nat) :
    effectiveLimit (x ++ " LIMIT ".data ++ natChars k) = some k := by
  unfold effectiveLimit splitTrailingLimit
  have hrev : (x ++ " LIMIT ".data ++ natChars k).reverse
      = (natChars k).reverse ++ ' ' :: 'T' :: 'I' :: 'M' :: 'I' :: 'L' :: ' ' :: x.reverse := by
    rw [List.reverse_append, List.reverse_append]
    rfl
  rw [hrev]
  rw [limitRevScan_digit_run ((natChars k).reverse) x.reverse
    (by simp [natChars_ne_nil k])
    (fun c hc => natChars_digits k c (List.mem_reverse.1 hc))]
  simp [valOfDigits_natChars]

/-- C3 counterexample: a CTE-prefixed query is query-shaped (it classifies as
read-only), carries no trailing LIMIT, and is executed with `maxRows = 2`,
yet the row limiter leaves it unmodified, so its effective limit is not 2. -/
theorem C3_counterexample :
    isReadOnlySQL "WITH s AS (SELECT name FROM users) SELECT * FROM s".data
      ConnectorType.sqlite = true
    ∧ splitTrailingLimit "WITH s AS (SELECT name FROM users) SELECT * FROM s".data = none
    ∧ applyMaxRows "WITH s AS (SELECT name FROM users) SELECT * FROM s".data (some 2)
      = "WITH s AS (SELECT name FROM users) SELECT * FROM s".data
    ∧ effectiveLimit (applyMaxRows
        "WITH s AS (SELECT name FROM users) SELECT * FROM s".data (some 2)) ≠ some 2 :=
  ⟨by rfl, by rfl, by rfl, by decide⟩

/-- C3 amended: with no `maxRows` no rewriting happens regardless of any
existing LIMIT; a `WITH`-prefixed (CTE) statement is never rewritten; for
every other statement executed with `maxRows` supplied, an existing trailing
`LIMIT n` becomes an effective limit of `min n maxRows`, and a statement
without one gets an effective limit of exactly `maxRows`. -/
theorem C3_amended_row_limiting (stmt core : List Char) (n m : Nat) :
    applyMaxRows stmt none = stmt
    ∧ (isCTE stmt = true → applyMaxRows stmt (some m) = stmt)
    ∧ (isCTE stmt = false → splitTrailingLimit stmt = some (core, n) →
        effectiveLimit (applyMaxRows stmt (some m)) = some (min n m))
    ∧ (isCTE stmt = false → splitTrailingLimit stmt = none →
        effectiveLimit (applyMaxRows stmt (some m)) = some m) := by
  refine ⟨rfl, ?_, ?_, ?_⟩
  · intro h
    simp [applyMaxRows, h]
  · intro hc hsplit
    have : applyMaxRows stmt (some m) = core ++ " LIMIT ".data ++ natChars (min n m) := by
      simp [applyMaxRows, hc, hsplit]
    rw [this, effectiveLimit_append]
  · intro hc hsplit
    have : applyMaxRows stmt (some m) = stmt ++ " LIMIT ".data ++ natChars m := by
      simp [applyMaxRows, hc, hsplit]
    rw [this, effectiveLimit_append]

/-- Witness for C3 amended: the CTE query is untouched, `LIMIT 10` with
`maxRows = 2` yields an effective limit of `min 10 2 = 2`, and a plain query
with `maxRows = 2` gets effective limit 2. -/
theorem C3_amended_row_limiting_witness :
    applyMaxRows "WITH c AS (SELECT 1) SELECT * FROM c".data (some 2)
      = "WITH c AS (SELECT 1) SELECT * FROM c".data
    ∧ effectiveLimit (applyMaxRows "SELECT * FROM users ORDER BY id LIMIT 10".data (some 2))
      = some (min 10 2)
    ∧ effectiveLimit (applyMaxRows "SELECT * FROM users".data (some 2)) = some 2 :=
  ⟨(C3_amended_row_limiting "WITH c AS (SELECT 1) SELECT * FROM c".data [] 0 2).2.1 (by rfl),
    (C3_amended_row_limiting "SELECT * FROM users ORDER BY id LIMIT 10".data
      "SELECT * FROM users ORDER BY id".data 10 2).2.2.1 (by rfl) (by rfl),
    (C3_amended_row_limiting "SELECT * FROM users".data [] 0 2).2.2.2 (by rfl) (by rfl)⟩
